import Mathlib

/-!
Verification development for the koishi-plugin-csss repository.

The TypeScript source (src/index.ts, plus the scheduler-bearing variant of
the plugin shipped alongside it) is shallowly embedded below: pure
functions become Lean functions, the cache and the timer state become
explicit state passing, machine numbers become Int/Nat (JS numbers are
IEEE doubles; every quantity in the claims is far below 2^53, where double
and integer arithmetic agree), and fallible code returns Except/Option.
JS strings are modelled by Lean String (codepoint-indexed; the claims only
involve characters of the Basic Multilingual Plane, where JS UTF-16
code-unit indexing and codepoint indexing coincide).
-/

deriving instance DecidableEq for Except

namespace Csss

/-- Model of the ECMAScript StrWhiteSpace characters (the ASCII members
plus NBSP; the full ECMA set also contains rarer Unicode space
characters, none of which occur in any claim).  Used by the models of
parseInt and String.prototype.trim. -/
def jsWhitespace (c : Char) : Bool :=
  c = ' ' || c = '\t' || c = '\n' || c = '\r' || c = '\x0b' || c = '\x0c' || c = '\u00A0'

/-- Numeric value of a list of decimal digit characters, most significant
first. -/
def digitsVal (ds : List Char) : Nat :=
  ds.foldl (fun a c => 10 * a + (c.toNat - '0'.toNat)) 0

/-- Hexadecimal digit test, as accepted by parseInt in radix 16. -/
def isHexDigit (c : Char) : Bool :=
  c.isDigit || ('a' ≤ c && c ≤ 'f') || ('A' ≤ c && c ≤ 'F')

/-- Value of one hexadecimal digit character. -/
def hexDigitVal (c : Char) : Nat :=
  if c.isDigit then c.toNat - '0'.toNat
  else if 'a' ≤ c && c ≤ 'f' then c.toNat - 'a'.toNat + 10
  else c.toNat - 'A'.toNat + 10

/-- Numeric value of a list of hexadecimal digit characters. -/
def hexVal (ds : List Char) : Nat :=
  ds.foldl (fun a c => 16 * a + hexDigitVal c) 0

/-- Model of ECMAScript parseInt(s) with no radix argument: skip leading
whitespace, consume an optional sign, detect an optional 0x/0X marker
(switching to radix 16), then take the longest leading run of digits of
the selected radix; no digit at all yields NaN, modelled as `none`. -/
def jsParseInt (s : String) : Option Int :=
  let cs0 := s.data.dropWhile jsWhitespace
  let sgn : Int := if cs0.head? = some '-' then -1 else 1
  let cs1 := if cs0.head? = some '-' ∨ cs0.head? = some '+' then cs0.tail else cs0
  if cs1.head? = some '0' ∧ (cs1.tail.head? = some 'x' ∨ cs1.tail.head? = some 'X') then
    let hs := cs1.tail.tail.takeWhile isHexDigit
    if hs.isEmpty then none else some (sgn * (hexVal hs : Int))
  else
    let ds := cs1.takeWhile Char.isDigit
    if ds.isEmpty then none else some (sgn * (digitsVal ds : Int))

/-- Model of input.replace applied with the anchored scheme RegExp for
http, https, udp and tcp followed by colon-slash-slash: at most one of
the four markers can lead a given string, and it is removed. -/
def stripScheme (s : String) : String :=
  if "http://".data.isPrefixOf s.data then ⟨s.data.drop 7⟩
  else if "https://".data.isPrefixOf s.data then ⟨s.data.drop 8⟩
  else if "udp://".data.isPrefixOf s.data then ⟨s.data.drop 6⟩
  else if "tcp://".data.isPrefixOf s.data then ⟨s.data.drop 6⟩
  else s

/-- The input carries none of the four scheme markers, so the replace in
parseAddress leaves it unchanged. -/
def noScheme (s : String) : Prop :=
  ¬("http://".data.isPrefixOf s.data ∨ "https://".data.isPrefixOf s.data ∨
    "udp://".data.isPrefixOf s.data ∨ "tcp://".data.isPrefixOf s.data)

instance (s : String) : Decidable (noScheme s) := by
  unfold noScheme; infer_instance

/-- Model of JS String.prototype.split with a single-character separator. -/
def splitOnChar (sep : Char) : List Char → List (List Char)
  | [] => [[]]
  | c :: rest =>
    let r := splitOnChar sep rest
    if c = sep then [] :: r
    else
      match r with
      | h :: t => (c :: h) :: t
      | [] => [[c]]

/-- Model of the anchored bracket RegExp used by parseAddress for
bracketed hosts: the character class excluding the closing bracket
necessarily matches exactly the (nonempty) run of characters before the
first closing bracket, which must then be present; the remainder must be
empty, or a colon followed by one or more decimal digits reaching the end
of the string. -/
def bracketMatch (cs : List Char) : Option (List Char × Option (List Char)) :=
  match cs with
  | '[' :: rest =>
    let host := rest.takeWhile (fun c => c ≠ ']')
    if host.isEmpty then none
    else
      match rest.dropWhile (fun c => c ≠ ']') with
      | ']' :: tail =>
        match tail with
        | [] => some (host, none)
        | ':' :: ds => if !ds.isEmpty && ds.all Char.isDigit then some (host, some ds) else none
        | _ => none
      | _ => none
  | _ => none

/-- The InvalidAddress error message thrown by parseAddress in
src/index.ts, naming the offending input. -/
def invalidAddressMsg (input : String) : String :=
  "无效的地址格式: " ++ input ++ "\n正确格式: [地址]:[端口] 或 [地址]"

/-- The colon-splitting tail of parseAddress: split the (scheme-stripped)
address on colons; two parts go through parseInt and the port range
check, one part takes the default port 27015, anything else throws the
InvalidAddress error naming the original input. -/
def parseSplitPath (input : String) (address : List Char) : Except String (String × Int) :=
  match splitOnChar ':' address with
  | [hostOnly] => .ok (⟨hostOnly⟩, 27015)
  | [host, portStr] =>
    match jsParseInt ⟨portStr⟩ with
    | some port =>
      if 1 ≤ port ∧ port ≤ 65535 then .ok (⟨host⟩, port)
      else .error (invalidAddressMsg input)
    | none => .error (invalidAddressMsg input)
  | _ => .error (invalidAddressMsg input)

/-- Shallow embedding of parseAddress (src/index.ts, lines 248-270):
strip a scheme marker; if the remainder contains an opening bracket, try
the bracket RegExp (parseInt applied to the captured digit run is its
decimal value), returning on an in-range port and otherwise falling
through to the colon-splitting tail. -/
def parseAddress (input : String) : Except String (String × Int) :=
  let address := stripScheme input
  if address.data.contains '[' then
    match bracketMatch address.data with
    | some (host, portDigits) =>
      let port : Int :=
        match portDigits with
        | some ds => (digitsVal ds : Int)
        | none => 27015
      if 1 ≤ port ∧ port ≤ 65535 then .ok (⟨host⟩, port)
      else parseSplitPath input address.data
    | none => parseSplitPath input address.data
  else parseSplitPath input address.data

/-- Configuration slice used by queryServer: cache TTL in milliseconds
and the retry count.  cacheTime is an Int so that the JS comparison
now - entry.timestamp < cacheTime is modelled without Nat truncation. -/
structure RetryConfig where
  cacheTime : Int
  retryCount : Nat
deriving Repr, DecidableEq

/-- A cache entry: the timestamp written at the start of the call that
stored it, and the cached data. -/
structure CacheEntry (α : Type) where
  timestamp : Int
  data : α
deriving Repr, DecidableEq

/-- The in-memory Map used as the query cache, keyed by the
host-colon-port string. -/
abbrev Cache (α : Type) := List (String × CacheEntry α)

/-- Map.get: the binding under k, if any (bindings are unique). -/
def cacheGet (c : Cache α) (k : String) : Option (CacheEntry α) :=
  match c with
  | [] => none
  | p :: rest => if p.1 == k then some p.2 else cacheGet rest k

/-- Map.set: overwrite the binding under k in place when present, append
a new binding otherwise. -/
def cacheSet (c : Cache α) (k : String) (e : CacheEntry α) : Cache α :=
  match c with
  | [] => [(k, e)]
  | p :: rest => if p.1 == k then (k, e) :: rest else p :: cacheSet rest k e

/-- Outcome of one queryServer call: the returned or thrown value, the
cache after the call, how many times the external query collaborator was
invoked, and how many fixed 1-second delays were awaited between
attempts. -/
structure QSOutcome (α : Type) where
  result : Except String α
  cache : Cache α
  calls : Nat
  delays : Nat
deriving Repr, DecidableEq

/-- The QueryFailed message thrown when every attempt fails: the fixed
text plus the last error message, where the JS falsy-or replaces an empty
message by the unknown-error text. -/
def queryFailedMsg (lastErr : String) : String :=
  "无法连接到服务器: " ++ (if lastErr = "" then "未知错误" else lastErr)

/-- The retry loop of queryServer, from attempt index i with rest further
attempts allowed after this one (the source loop runs i from 0 to
retryCount, so rest starts at retryCount).  `attempt` is the external
query collaborator, indexed by attempt number; `now` is the timestamp
captured once at call entry, and it is what a successful attempt writes
into the cache.  A failure with attempts remaining awaits the fixed
1-second setTimeout and continues; a failure on the last attempt throws
QueryFailed with that last error. -/
def retryGo (cfg : RetryConfig) (cache : Cache α) (cacheKey : String) (now : Int)
    (attempt : Nat → Except String α) : Nat → Nat → QSOutcome α
  | i, 0 =>
    match attempt i with
    | .ok d =>
      ⟨.ok d, if cfg.cacheTime > 0 then cacheSet cache cacheKey ⟨now, d⟩ else cache, 1, 0⟩
    | .error e => ⟨.error (queryFailedMsg e), cache, 1, 0⟩
  | i, rest + 1 =>
    match attempt i with
    | .ok d =>
      ⟨.ok d, if cfg.cacheTime > 0 then cacheSet cache cacheKey ⟨now, d⟩ else cache, 1, 0⟩
    | .error _ =>
      let r := retryGo cfg cache cacheKey now attempt (i + 1) rest
      ⟨r.result, r.cache, r.calls + 1, r.delays + 1⟩

/-- Shallow embedding of queryServer (src/index.ts, lines 272-312): take
the timestamp once at entry; when caching is enabled and a fresh entry
exists under host-colon-port, return its data with no collaborator call;
otherwise run the retry loop. -/
def queryServer (cfg : RetryConfig) (cache : Cache α) (now : Int)
    (host : String) (port : Int) (attempt : Nat → Except String α) : QSOutcome α :=
  let cacheKey := host ++ ":" ++ toString port
  if cfg.cacheTime > 0 then
    match cacheGet cache cacheKey with
    | some e =>
      if now - e.timestamp < cfg.cacheTime then ⟨.ok e.data, cache, 0, 0⟩
      else retryGo cfg cache cacheKey now attempt 0 cfg.retryCount
    | none => retryGo cfg cache cacheKey now attempt 0 cfg.retryCount
  else retryGo cfg cache cacheKey now attempt 0 cfg.retryCount

/-- The call misses the cache: caching disabled, no entry, or an entry at
least cacheTime milliseconds old. -/
def cacheMiss (cfg : RetryConfig) (cache : Cache α) (now : Int) (key : String) : Prop :=
  cfg.cacheTime ≤ 0 ∨ cacheGet cache key = none ∨
    ∃ e, cacheGet cache key = some e ∧ cfg.cacheTime ≤ now - e.timestamp

/-- Outcome of one address inside the batch fan-out. -/
inductive QueryOutcome (α : Type) where
  | ok (data : α)
  | fail (error : String)
deriving Repr, DecidableEq

/-- One element of the settled result array of queryServers: 1-based
index, the original address string, and the success-or-error outcome. -/
structure BatchEntry (α : Type) where
  index : Nat
  server : String
  outcome : QueryOutcome α
deriving Repr, DecidableEq

/-- One mapped async function body in queryServers: parse the address,
then run the query; both kinds of exception are caught inside the mapped
function, so every promise of the allSettled fulfills, carrying
success=false and the error message on failure.  The inner call (the
cache-and-retry wrapper) is abstracted as the query argument. -/
def batchEntryFor (query : String → Int → Except String α) (i : Nat)
    (server : String) : BatchEntry α :=
  match parseAddress server with
  | .ok (host, port) =>
    match query host port with
    | .ok d => ⟨i + 1, server, .ok d⟩
    | .error e => ⟨i + 1, server, .fail e⟩
  | .error e => ⟨i + 1, server, .fail e⟩

/-- The indexed map underlying queryServers, starting at index st. -/
def queryServersAux (query : String → Int → Except String α) :
    Nat → List String → List (BatchEntry α)
  | _, [] => []
  | i, s :: rest => batchEntryFor query i s :: queryServersAux query (i + 1) rest

/-- Shallow embedding of queryServers (src/index.ts, lines 183-210): map
every address, in input order, to its settled entry. -/
def queryServers (query : String → Int → Except String α)
    (servers : List String) : List (BatchEntry α) :=
  queryServersAux query 0 servers

/-- One pass of the global RegExp replace removing caret-digit pairs
from a name: the scan is left to right and non-overlapping, exactly as a
global replace proceeds. -/
def stripCaretDigits : List Char → List Char
  | [] => []
  | '^' :: c :: rest =>
    if c.isDigit then stripCaretDigits rest
    else '^' :: stripCaretDigits (c :: rest)
  | c :: rest => c :: stripCaretDigits rest

/-- The control-character class u0000-u001F removed by cleanName. -/
def isControlChar (c : Char) : Bool := c.toNat ≤ 0x1F

/-- Model of String.prototype.trim on the character list: strip leading
and trailing whitespace (the jsWhitespace set; full JS trim also strips
the two Unicode line-separator characters, which occur in no claim). -/
def jsTrimList (cs : List Char) : List Char :=
  ((cs.dropWhile jsWhitespace).reverse.dropWhile jsWhitespace).reverse

/-- Model of String.prototype.trim. -/
def jsTrim (s : String) : String := ⟨jsTrimList s.data⟩

/-- Shallow embedding of utils.cleanName: a falsy (empty) name becomes
the unknown marker; otherwise remove caret-digit coloring codes, then
control characters, then trim. -/
def cleanName (name : String) : String :=
  if name = "" then "未知"
  else ⟨jsTrimList ((stripCaretDigits name.data).filter (fun c => !isControlChar c))⟩

/-- Shallow embedding of utils.truncateText: text longer than maxLength
keeps its first maxLength characters and gains a three-dot ellipsis
(making the result maxLength + 3 characters long). -/
def truncateText (text : String) (maxLength : Nat) : String :=
  if text.length > maxLength then ⟨text.data.take maxLength⟩ ++ "..." else text

/-- Model of String.prototype.padEnd with a space: pad up to n only when
the string is shorter than n. -/
def padEnd (s : String) (n : Nat) : String :=
  if s.length ≥ n then s else s ++ ⟨List.replicate (n - s.length) ' '⟩

/-- Model of String.prototype.padStart with a space. -/
def padStart (s : String) (n : Nat) : String :=
  if s.length ≥ n then s else (⟨List.replicate (n - s.length) ' '⟩ : String) ++ s

/-- The server-name cell of a successful row of the batch text table
(generateTextTable, src/index.ts lines 229-234): the cleaned name
(the source guards a falsy name to the unknown marker, which coincides
with cleanName on the empty string), truncated via truncateText to 20,
then space-padded to 20. -/
def tableNameCell (serverName : String) : String :=
  padEnd (truncateText (cleanName serverName) 20) 20

/-- A full successful row of the batch text table: right-aligned 1-based
index in 2 columns, two spaces, the name cell, a space, and the
current/max player count. -/
def tableSuccessRow (idx : Nat) (serverName : String)
    (playerCount maxPlayers : Nat) : String :=
  padStart (toString idx) 2 ++ "  " ++ tableNameCell serverName ++ " " ++
    toString playerCount ++ "/" ++ toString maxPlayers ++ "\n"

/-- A player object as consumed by formatPlayers (only the name field is
read). -/
structure JSPlayer where
  name : String
deriving Repr, DecidableEq

/-- Lowercasing per String.prototype.toLowerCase, modelled on the ASCII
range (Char.toLower). -/
def jsToLower (s : String) : String := ⟨s.data.map Char.toLower⟩

/-- The comparator key of formatPlayers: the cleaned name, lowercased. -/
def playerKey (p : JSPlayer) : List Char := (jsToLower (cleanName p.name)).data

/-- Codepoint-lexicographic at-most comparison of character lists; the
executable model of the external localeCompare collaborator applied to
the lowercased cleaned names (any consistent total comparison yields the
sortedness facts below). -/
def charListLe : List Char → List Char → Bool
  | [], _ => true
  | _ :: _, [] => false
  | a :: as, b :: bs =>
    if a.toNat < b.toNat then true
    else if b.toNat < a.toNat then false
    else charListLe as bs

/-- The sort relation of formatPlayers: comparator at most zero on the
lowercased cleaned names. -/
def playerLe (a b : JSPlayer) : Prop :=
  charListLe (playerKey a) (playerKey b) = true

instance : DecidableRel playerLe := fun a b => by
  unfold playerLe
  infer_instance

instance : IsTotal JSPlayer playerLe := by
  constructor
  intro a b
  unfold playerLe
  suffices h : ∀ as bs, charListLe as bs = true ∨ charListLe bs as = true from h _ _
  intro as
  induction as with
  | nil => intro bs; left; rfl
  | cons a as ih =>
    intro bs
    cases bs with
    | nil => right; rfl
    | cons b bs =>
      unfold charListLe
      by_cases hab : a.toNat < b.toNat
      · left; rw [if_pos hab]
      · by_cases hba : b.toNat < a.toNat
        · right; rw [if_pos hba]
        · rw [if_neg hab, if_neg hba, if_neg hba, if_neg hab]
          exact ih bs

instance : IsTrans JSPlayer playerLe := by
  constructor
  intro a b c
  unfold playerLe
  suffices h : ∀ as bs cs, charListLe as bs = true → charListLe bs cs = true →
      charListLe as cs = true from h _ _ _
  intro as
  induction as with
  | nil => intro bs cs _ _; rfl
  | cons a as ih =>
    intro bs cs hab hbc
    cases bs with
    | nil => simp [charListLe] at hab
    | cons b bs =>
      cases cs with
      | nil => simp [charListLe] at hbc
      | cons c cs =>
        unfold charListLe at hab hbc ⊢
        rcases Nat.lt_trichotomy a.toNat b.toNat with h1 | h1 | h1
        · rcases Nat.lt_trichotomy b.toNat c.toNat with h2 | h2 | h2
          · rw [if_pos (by omega)]
          · rw [if_pos (by omega)]
          · rw [if_neg (by omega), if_pos (by omega)] at hbc
            simp at hbc
        · rcases Nat.lt_trichotomy b.toNat c.toNat with h2 | h2 | h2
          · rw [if_pos (by omega)]
          · rw [if_neg (by omega), if_neg (by omega)] at hab
            rw [if_neg (by omega), if_neg (by omega)] at hbc
            rw [if_neg (by omega), if_neg (by omega)]
            exact ih bs cs hab hbc
          · rw [if_neg (by omega), if_pos (by omega)] at hbc
            simp at hbc
        · rw [if_neg (by omega), if_pos (by omega)] at hab
          simp at hab

/-- The sort in formatPlayers: JS Array.prototype.sort (stable) under
the localeCompare comparator, modelled as insertion sort under
playerLe. -/
def sortPlayers (players : List JSPlayer) : List JSPlayer :=
  List.insertionSort playerLe players

/-- The numbered display lines appended by the forEach in formatPlayers,
starting at display position st (the source numbers from 1, so the line
for position i reads i+1 dot space name). -/
def numberLines : Nat → List JSPlayer → List String
  | _, [] => []
  | i, p :: rest =>
    (toString (i + 1) ++ ". " ++ cleanName p.name) :: numberLines (i + 1) rest

/-- The displayed (sorted, truncated) numbered lines of formatPlayers. -/
def formatPlayersLines (maxPlayers : Nat) (players : List JSPlayer) : List String :=
  numberLines 0 ((sortPlayers players).take maxPlayers)

/-- Shallow embedding of formatPlayers (src/index.ts, lines 331-354):
the empty (or missing) list returns the fixed no-players line; otherwise
a header with the total count, the numbered lines for the first
maxPlayers sorted players, and a not-shown trailer when the list was
truncated, the whole message finally trimmed. -/
def formatPlayers (maxPlayers : Nat) (players : List JSPlayer) : String :=
  if players.isEmpty then "👤 服务器当前无在线玩家"
  else
    jsTrim (("👤 在线玩家 (" ++ toString players.length ++ "人):\n") ++
      String.join ((formatPlayersLines maxPlayers players).map (fun l => l ++ "\n")) ++
      (if players.length > maxPlayers then
        "... 还有 " ++ toString (players.length - maxPlayers) ++ " 位玩家未显示"
      else ""))

/-- Twenty-five distinct players, used to instantiate the formatter
claims at the spec example size. -/
def players25 : List JSPlayer := (List.range 25).map (fun i => ⟨"p" ++ toString (i + 10)⟩)

/-- The runtime timer table together with the plugin's handle variable:
scheduleTimer is the closure variable, live lists the identifiers of
armed (not yet cleared) interval timers, and nextId supplies fresh
identifiers. -/
structure TimerState where
  scheduleTimer : Option Nat
  live : List Nat
  nextId : Nat
deriving Repr, DecidableEq

/-- Model of clearInterval: the identified timer is no longer live;
clearing an already-cleared identifier is harmless. -/
def clearIntervalOp (s : TimerState) (id : Nat) : TimerState :=
  { s with live := s.live.filter (fun t => t != id) }

/-- Model of setInterval: a fresh identifier becomes live and is
returned as the handle. -/
def setIntervalOp (s : TimerState) : Nat × TimerState :=
  (s.nextId, { s with live := s.nextId :: s.live, nextId := s.nextId + 1 })

/-- Shallow embedding of startScheduleTask (scheduler source, lines
308-324): clear the timer named by the current handle, if any; then,
when the schedule is enabled and the interval is positive, run one
immediate tick (which does not touch the timer state) and arm a new
interval timer, storing its handle.  In the disabled branch the stale
handle value is left in place (the source does not null it there). -/
def clearCurrent (s : TimerState) : TimerState :=
  match s.scheduleTimer with
  | some h => clearIntervalOp s h
  | none => s

def startScheduleTask (enabled : Bool) (interval : Nat) (s : TimerState) : TimerState :=
  let s1 := clearCurrent s
  if enabled ∧ interval > 0 then
    let p := setIntervalOp s1
    { p.2 with scheduleTimer := some p.1 }
  else s1

/-- Shallow embedding of stopScheduleTask (scheduler source, lines
327-333): when a handle is present, clear its timer and null the
handle; otherwise do nothing. -/
def stopScheduleTask (s : TimerState) : TimerState :=
  match s.scheduleTimer with
  | some h => { clearIntervalOp s h with scheduleTimer := none }
  | none => s

/-- The timer invariant: every live timer is the one named by the
handle, and live identifiers are distinct (setInterval hands out fresh
ones), hence at most one timer is ever live. -/
def timerInv (s : TimerState) : Prop :=
  (∀ t ∈ s.live, s.scheduleTimer = some t) ∧ s.live.Nodup

/-- The stronger handle-liveness correspondence the program maintains:
timerInv plus a null handle exactly when no timer is live.  Every call
site of startScheduleTask in the source (plugin init, the config
listener, the schedule start command) runs it with scheduleEnabled true,
and the schema keeps the interval at least 1, so the arming branch is
always taken and this correspondence is preserved. -/
def timerSync (s : TimerState) : Prop :=
  timerInv s ∧ (s.scheduleTimer = none ↔ s.live = [])

/-- The timer state at plugin load: no handle, no live timer. -/
def initialTimerState : TimerState := ⟨none, [], 0⟩

instance (s : TimerState) : Decidable (timerInv s) := by
  unfold timerInv; infer_instance

instance (s : TimerState) : Decidable (timerSync s) := by
  unfold timerSync; infer_instance

/-- Model of Number() as applied by parseTimeToMinutes to the parts of a
time string: empty becomes 0, a digit run its decimal value, anything
else NaN (modelled none; the schedule times are schema-constrained to
digit HH:MM shapes, so the other Number forms never arise here). -/
def jsNumberNat (s : String) : Option Nat :=
  if s.data = [] then some 0
  else if s.data.all Char.isDigit then some (digitsVal s.data) else none

/-- Shallow embedding of utils.parseTimeToMinutes (scheduler source,
lines 178-181): split on colons, destructure the first two parts
(a missing minutes part is undefined, and Number(undefined) is NaN),
and return hours*60 + minutes, NaN-propagating. -/
def parseTimeToMinutes (timeStr : String) : Option Nat :=
  match splitOnChar ':' timeStr.data with
  | [] => none
  | [_] => none
  | h :: m :: _ =>
    match jsNumberNat ⟨h⟩, jsNumberNat ⟨m⟩ with
    | some hv, some mv => some (hv * 60 + mv)
    | _, _ => none

/-- Shallow embedding of utils.isWithinScheduleTime (scheduler source,
lines 184-191) at local wall-clock time nowH:nowM: the current
minute-of-day must lie inclusively between the parsed bounds; a NaN
bound fails both JS comparisons, so the result is false. -/
def isWithinScheduleTime (nowH nowM : Nat) (startTime endTime : String) : Bool :=
  let currentMinutes := nowH * 60 + nowM
  match parseTimeToMinutes startTime, parseTimeToMinutes endTime with
  | some sm, some em => decide (sm ≤ currentMinutes) && decide (currentMinutes ≤ em)
  | _, _ => false

/-- The configuration slice read by the scheduler tick. -/
structure ScheduleConfig where
  scheduleEnabled : Bool
  scheduleStartTime : String
  scheduleEndTime : String
  scheduleGroups : List String
  serverList : List String
deriving Repr, DecidableEq

/-- Shallow embedding of the guard structure of executeScheduleTask
(scheduler source, lines 199-207): a tick is a no-op (none) unless the
schedule is enabled, some destination group and some server are
configured, and the current time-of-day is within the window; a running
tick queries every configured server and broadcasts to every configured
group (returned as the pair of those lists). -/
def executeScheduleTask (cfg : ScheduleConfig) (nowH nowM : Nat) :
    Option (List String × List String) :=
  if !cfg.scheduleEnabled || cfg.scheduleGroups.isEmpty || cfg.serverList.isEmpty then
    none
  else if !isWithinScheduleTime nowH nowM cfg.scheduleStartTime cfg.scheduleEndTime then
    none
  else some (cfg.serverList, cfg.scheduleGroups)

/-- Shallow embedding of the image-versus-text selection of the cs
command action (src/index.ts, line 771): the image option wins, and the
text option only suppresses the configured generateImage default. -/
def csShouldGenerateImage (image text generateImage : Bool) : Bool :=
  image || (generateImage && !text)

/-- Shallow embedding of the identical selection in the csss command
action (src/index.ts, line 946). -/
def csssShouldGenerateImage (image text generateImage : Bool) : Bool :=
  image || (generateImage && !text)

/-! ### Lemmas about the address parser -/

theorem stripScheme_eq_self {s : String} (h : noScheme s) : stripScheme s = s := by
  unfold noScheme at h
  simp only [not_or] at h
  obtain ⟨h1, h2, h3, h4⟩ := h
  unfold stripScheme
  rw [if_neg h1, if_neg h2, if_neg h3, if_neg h4]

theorem splitOnChar_length (sep : Char) (cs : List Char) :
    (splitOnChar sep cs).length = cs.count sep + 1 := by
  induction cs with
  | nil => rfl
  | cons c rest ih =>
    simp only [splitOnChar]
    by_cases h : c = sep
    · subst h
      simp [List.count_cons, ih]
    · rw [if_neg h]
      rcases hr : splitOnChar sep rest with _ | ⟨hd, tl⟩
      · rw [hr] at ih; simp at ih
      · rw [hr] at ih
        simp only [List.length_cons] at ih ⊢
        rw [List.count_cons, if_neg (by simpa using h)]
        omega

theorem splitOnChar_not_mem (sep : Char) (cs : List Char) (h : sep ∉ cs) :
    splitOnChar sep cs = [cs] := by
  induction cs with
  | nil => rfl
  | cons c rest ih =>
    simp only [splitOnChar]
    rw [if_neg (by rintro rfl; exact h (List.mem_cons_self _ _)),
      ih (fun hm => h (List.mem_cons_of_mem _ hm))]

theorem splitOnChar_append_cons (sep : Char) (h t : List Char) (hh : sep ∉ h) :
    splitOnChar sep (h ++ sep :: t) = h :: splitOnChar sep t := by
  induction h with
  | nil => simp [splitOnChar]
  | cons c cs ih =>
    have hc : c ≠ sep := by rintro rfl; exact hh (List.mem_cons_self _ _)
    simp only [List.cons_append, splitOnChar, List.append_eq]
    rw [ih (fun hm => hh (List.mem_cons_of_mem _ hm)), if_neg hc]

theorem digit_not_ws {c : Char} (h : c.isDigit = true) : jsWhitespace c = false := by
  have e1 : c ≠ ' ' := by rintro rfl; exact absurd h (by decide)
  have e2 : c ≠ '\t' := by rintro rfl; exact absurd h (by decide)
  have e3 : c ≠ '\n' := by rintro rfl; exact absurd h (by decide)
  have e4 : c ≠ '\r' := by rintro rfl; exact absurd h (by decide)
  have e5 : c ≠ '\x0b' := by rintro rfl; exact absurd h (by decide)
  have e6 : c ≠ '\x0c' := by rintro rfl; exact absurd h (by decide)
  have e7 : c ≠ '\u00A0' := by rintro rfl; exact absurd h (by decide)
  simp only [jsWhitespace]
  rw [decide_eq_false e1, decide_eq_false e2, decide_eq_false e3, decide_eq_false e4,
    decide_eq_false e5, decide_eq_false e6, decide_eq_false e7]
  rfl

theorem jsParseInt_digits (ds : List Char) (hne : ds ≠ [])
    (hd : ∀ c ∈ ds, c.isDigit) :
    jsParseInt ⟨ds⟩ = some ((digitsVal ds : Nat) : Int) := by
  obtain ⟨d, rest, rfl⟩ : ∃ d rest, ds = d :: rest := by
    cases ds with
    | nil => exact absurd rfl hne
    | cons d rest => exact ⟨d, rest, rfl⟩
  have hdd : d.isDigit := hd d (List.mem_cons_self _ _)
  have hdrop : List.dropWhile jsWhitespace (d :: rest) = d :: rest := by
    rw [List.dropWhile_cons, if_neg (by rw [digit_not_ws hdd]; simp)]
  have hdm : d ≠ '-' := by rintro rfl; exact absurd hdd (by decide)
  have hdp : d ≠ '+' := by rintro rfl; exact absurd hdd (by decide)
  have h1 : ¬((d :: rest).head? = some '-') := by simp [hdm]
  have h2 : ¬((d :: rest).head? = some '-' ∨ (d :: rest).head? = some '+') := by
    simp [hdm, hdp]
  have h3 : ¬((d :: rest).head? = some '0' ∧
      ((d :: rest).tail.head? = some 'x' ∨ (d :: rest).tail.head? = some 'X')) := by
    rintro ⟨-, hx | hx⟩ <;>
    · cases rest with
      | nil => simp at hx
      | cons x xs =>
        simp only [List.tail_cons, List.head?_cons, Option.some.injEq] at hx
        subst hx
        exact absurd (hd _ (List.mem_cons_of_mem _ (List.mem_cons_self _ _))) (by decide)
  have htw : List.takeWhile Char.isDigit (d :: rest) = d :: rest :=
    List.takeWhile_eq_self_iff.mpr hd
  have hdata : (String.mk (d :: rest)).data = d :: rest := rfl
  unfold jsParseInt
  rw [hdata, hdrop]
  dsimp only
  rw [if_neg h1, if_neg h2, if_neg h3, htw]
  simp

theorem parseAddress_no_bracket (s : String) (h1 : noScheme s) (h2 : '[' ∉ s.data) :
    parseAddress s = parseSplitPath s s.data := by
  unfold parseAddress
  rw [stripScheme_eq_self h1, if_neg (by simpa using h2)]

theorem data_append_colon (host portStr : String) :
    (host ++ ":" ++ portStr).data = host.data ++ ':' :: portStr.data := by
  cases host with
  | mk a =>
    cases portStr with
    | mk b =>
      show (a ++ ':' :: List.nil) ++ b = a ++ ':' :: b
      simp

theorem parseSplitPath_two (input host portStr : String)
    (hh : ':' ∉ host.data) (hp : ':' ∉ portStr.data) :
    parseSplitPath input (host.data ++ ':' :: portStr.data) =
      match jsParseInt portStr with
      | some port =>
        if 1 ≤ port ∧ port ≤ 65535 then .ok (host, port)
        else .error (invalidAddressMsg input)
      | none => .error (invalidAddressMsg input) := by
  unfold parseSplitPath
  rw [splitOnChar_append_cons _ _ _ hh, splitOnChar_not_mem _ _ hp]

/-! ### Lemmas about the query cache and retry loop -/

theorem cacheGet_cacheSet (c : Cache α) (k : String) (e : CacheEntry α) :
    cacheGet (cacheSet c k e) k = some e := by
  induction c with
  | nil => simp [cacheSet, cacheGet]
  | cons p rest ih =>
    by_cases hp : p.1 == k
    · simp [cacheSet, cacheGet, hp]
    · simp only [cacheSet, cacheGet, hp, if_neg, Bool.false_eq_true, if_false]
      exact ih

theorem retryGo_calls_le (cfg : RetryConfig) (cache : Cache α) (key : String)
    (now : Int) (attempt : Nat → Except String α) :
    ∀ rest i, (retryGo cfg cache key now attempt i rest).calls ≤ rest + 1 := by
  intro rest
  induction rest with
  | zero =>
    intro i
    unfold retryGo
    cases attempt i <;> simp
  | succ r ih =>
    intro i
    unfold retryGo
    cases attempt i with
    | ok d => simp
    | error e =>
      have := ih (i + 1)
      simp only
      omega

theorem retryGo_calls_pos (cfg : RetryConfig) (cache : Cache α) (key : String)
    (now : Int) (attempt : Nat → Except String α) :
    ∀ rest i, 1 ≤ (retryGo cfg cache key now attempt i rest).calls := by
  intro rest
  induction rest with
  | zero =>
    intro i
    unfold retryGo
    cases attempt i <;> simp
  | succ r ih =>
    intro i
    unfold retryGo
    cases attempt i with
    | ok d => simp
    | error e => simp

theorem retryGo_all_fail (cfg : RetryConfig) (cache : Cache α) (key : String)
    (now : Int) (attempt : Nat → Except String α) (err : Nat → String) :
    ∀ rest i, (∀ j, i ≤ j → j ≤ i + rest → attempt j = .error (err j)) →
    retryGo cfg cache key now attempt i rest =
      ⟨.error (queryFailedMsg (err (i + rest))), cache, rest + 1, rest⟩ := by
  intro rest
  induction rest with
  | zero =>
    intro i hf
    unfold retryGo
    rw [hf i (le_refl i) (by omega)]
    rfl
  | succ r ih =>
    intro i hf
    unfold retryGo
    rw [hf i (le_refl i) (by omega)]
    have hr := ih (i + 1) (fun j hj1 hj2 => hf j (by omega) (by omega))
    rw [hr]
    have harith : i + 1 + r = i + (r + 1) := by omega
    rw [harith]

theorem retryGo_first_success (cfg : RetryConfig) (cache : Cache α) (key : String)
    (now : Int) (attempt : Nat → Except String α) (d : α) :
    ∀ k i rest, k ≤ rest → attempt (i + k) = .ok d →
    (∀ j, i ≤ j → j < i + k → ∃ m, attempt j = .error m) →
    retryGo cfg cache key now attempt i rest =
      ⟨.ok d, if cfg.cacheTime > 0 then cacheSet cache key ⟨now, d⟩ else cache,
        k + 1, k⟩ := by
  intro k
  induction k with
  | zero =>
    intro i rest hk hok hb
    rw [Nat.add_zero] at hok
    cases rest with
    | zero =>
      unfold retryGo
      rw [hok]
    | succ r =>
      unfold retryGo
      rw [hok]
  | succ k ih =>
    intro i rest hk hok hb
    cases rest with
    | zero => omega
    | succ r =>
      obtain ⟨m, hm⟩ := hb i (le_refl i) (by omega)
      unfold retryGo
      rw [hm]
      have hr := ih (i + 1) r (by omega)
        (by rw [show i + 1 + k = i + (k + 1) from by omega]; exact hok)
        (fun j hj1 hj2 => hb j (by omega) (by omega))
      rw [hr]

theorem retryGo_ok_cache (cfg : RetryConfig) (cache : Cache α) (key : String)
    (now : Int) (attempt : Nat → Except String α) (hct : cfg.cacheTime > 0) :
    ∀ rest i (d : α),
      (retryGo cfg cache key now attempt i rest).result = .ok d →
      cacheGet (retryGo cfg cache key now attempt i rest).cache key =
        some ⟨now, d⟩ := by
  intro rest
  induction rest with
  | zero =>
    intro i d h
    unfold retryGo at h ⊢
    cases hai : attempt i with
    | ok d0 =>
      rw [hai] at h
      dsimp only at h ⊢
      simp only [Except.ok.injEq] at h
      subst h
      rw [if_pos hct]
      exact cacheGet_cacheSet cache key ⟨now, d0⟩
    | error e =>
      rw [hai] at h
      dsimp only at h
      simp at h
  | succ r ih =>
    intro i d h
    unfold retryGo at h ⊢
    cases hai : attempt i with
    | ok d0 =>
      rw [hai] at h
      dsimp only at h ⊢
      simp only [Except.ok.injEq] at h
      subst h
      rw [if_pos hct]
      exact cacheGet_cacheSet cache key ⟨now, d0⟩
    | error e =>
      rw [hai] at h
      dsimp only at h ⊢
      exact ih (i + 1) d h

theorem queryServer_miss (cfg : RetryConfig) (cache : Cache α) (now : Int)
    (host : String) (port : Int) (attempt : Nat → Except String α)
    (hmiss : cacheMiss cfg cache now (host ++ ":" ++ toString port)) :
    queryServer cfg cache now host port attempt =
      retryGo cfg cache (host ++ ":" ++ toString port) now attempt 0
        cfg.retryCount := by
  unfold queryServer
  dsimp only
  rcases hmiss with h | h | ⟨e, he, hst⟩
  · rw [if_neg (by omega)]
  · by_cases hct : cfg.cacheTime > 0
    · rw [if_pos hct, h]
    · rw [if_neg hct]
  · by_cases hct : cfg.cacheTime > 0
    · rw [if_pos hct, he]
      dsimp only
      rw [if_neg (by omega)]
    · rw [if_neg hct]

/-! ### Lemmas about the batch fan-out -/

theorem queryServersAux_getElem (query : String → Int → Except String α) :
    ∀ (servers : List String) (st i : Nat),
      (queryServersAux query st servers)[i]? =
        (servers[i]?).map (batchEntryFor query (st + i)) := by
  intro servers
  induction servers with
  | nil => intro st i; simp [queryServersAux]
  | cons s rest ih =>
    intro st i
    cases i with
    | zero => simp [queryServersAux]
    | succ n =>
      simp only [queryServersAux, List.getElem?_cons_succ]
      rw [ih (st + 1) n, show st + (n + 1) = st + 1 + n from by omega]

theorem queryServersAux_length (query : String → Int → Except String α) :
    ∀ (servers : List String) (st : Nat),
      (queryServersAux query st servers).length = servers.length := by
  intro servers
  induction servers with
  | nil => intro st; rfl
  | cons s rest ih => intro st; simp [queryServersAux, ih (st + 1)]

/-- C1 (amended).  For an input of the form host-colon-port with no scheme
marker, no bracket, a colon-free host and a port that is a nonempty string
of decimal digits whose value lies in [1,65535], parseAddress returns
exactly that host and that value; an input without a colon (no scheme, no
bracket) returns the whole input as host with port 27015; an input with
two or more colons fails with the InvalidAddress error; and a
host-colon-port input whose port is rejected by JS parseInt (no parseable
leading integer), or whose parseInt value lies outside [1,65535] (which
covers port 0 and ports above 65535), fails with the InvalidAddress
error; that error names the offending input.  (The original claim said
instead that every non-numeric port fails; the counterexample is a port
with a numeric strict prefix, such as 80x, which parseInt accepts.) -/
theorem C1_parseAddress_amended :
    (∀ host portStr : String,
      noScheme (host ++ ":" ++ portStr) →
      '[' ∉ (host ++ ":" ++ portStr).data →
      ':' ∉ host.data →
      portStr.data ≠ [] →
      (∀ c ∈ portStr.data, c.isDigit) →
      1 ≤ digitsVal portStr.data →
      digitsVal portStr.data ≤ 65535 →
      parseAddress (host ++ ":" ++ portStr) =
        .ok (host, (digitsVal portStr.data : Int)))
  ∧ (∀ s : String, noScheme s → '[' ∉ s.data → ':' ∉ s.data →
      parseAddress s = .ok (s, 27015))
  ∧ (∀ s : String, noScheme s → '[' ∉ s.data → 2 ≤ s.data.count ':' →
      parseAddress s = .error (invalidAddressMsg s))
  ∧ (∀ host portStr : String,
      noScheme (host ++ ":" ++ portStr) →
      '[' ∉ (host ++ ":" ++ portStr).data →
      ':' ∉ host.data → ':' ∉ portStr.data →
      (jsParseInt portStr = none ∨
        ∃ v : Int, jsParseInt portStr = some v ∧ (v < 1 ∨ 65535 < v)) →
      parseAddress (host ++ ":" ++ portStr) =
        .error (invalidAddressMsg (host ++ ":" ++ portStr)))
  ∧ (∀ s : String, ∃ pre post : String,
      invalidAddressMsg s = pre ++ s ++ post) := by
  refine ⟨?_, ?_, ?_, ?_, ?_⟩
  · intro host portStr hns hnb hhc hpne hpd hlo hhi
    cases portStr with
    | mk pd =>
      have hpcolon : ':' ∉ pd := fun hm => absurd (hpd ':' hm) (by decide)
      rw [parseAddress_no_bracket _ hns hnb, data_append_colon,
        parseSplitPath_two _ _ _ hhc hpcolon, jsParseInt_digits pd hpne hpd]
      dsimp only
      rw [if_pos ⟨by exact_mod_cast hlo, by exact_mod_cast hhi⟩]
  · intro s hns hnb hnc
    rw [parseAddress_no_bracket s hns hnb]
    unfold parseSplitPath
    rw [splitOnChar_not_mem _ _ hnc]
  · intro s hns hnb hcnt
    rw [parseAddress_no_bracket s hns hnb]
    have hlen := splitOnChar_length ':' s.data
    rcases hsp : splitOnChar ':' s.data with _ | ⟨a, _ | ⟨b, _ | ⟨c, t⟩⟩⟩ <;>
      rw [hsp] at hlen
    · simp at hlen
    · simp only [List.length_cons, List.length_nil] at hlen; omega
    · simp only [List.length_cons, List.length_nil] at hlen; omega
    · unfold parseSplitPath
      rw [hsp]
  · intro host portStr hns hnb hhc hpc hbad
    cases portStr with
    | mk pd =>
      rw [parseAddress_no_bracket _ hns hnb, data_append_colon,
        parseSplitPath_two _ _ _ hhc hpc]
      rcases hbad with hj | ⟨v, hj, hv⟩
      · rw [hj]
      · rw [hj]
        dsimp only
        rw [if_neg (by rintro ⟨hc1, hc2⟩; rcases hv with h | h <;> omega)]
  · intro s
    exact ⟨"无效的地址格式: ", "\n正确格式: [地址]:[端口] 或 [地址]", by
      cases s with
      | mk d =>
        show String.mk _ = String.mk _
        simp [String.data]⟩

/-- C1 counterexample to the claim as stated: the port text 80x is not a
decimal numeral (it is non-numeric in the claim sense), yet parseAddress
does not fail with InvalidAddress: JS parseInt accepts the numeric strict
prefix 80 and the call succeeds with host h and port 80. -/
theorem C1_counterexample :
    (¬ ∀ c ∈ ("80x" : String).data, c.isDigit) ∧
    parseAddress ("h" ++ ":" ++ "80x") = .ok ("h", 80) := by
  constructor
  · decide
  · decide

/-- Witness for C1: the amended theorem applied at concrete inputs. -/
theorem C1_witness :
    parseAddress ("edgebug.cn" ++ ":" ++ "27015") = .ok ("edgebug.cn", 27015) ∧
    parseAddress "edgebug.cn" = .ok ("edgebug.cn", 27015) ∧
    parseAddress "a:1:2" = .error (invalidAddressMsg "a:1:2") ∧
    parseAddress ("h" ++ ":" ++ "0") = .error (invalidAddressMsg ("h" ++ ":" ++ "0")) ∧
    parseAddress ("h" ++ ":" ++ "65536") =
      .error (invalidAddressMsg ("h" ++ ":" ++ "65536")) ∧
    parseAddress ("h" ++ ":" ++ "abc") =
      .error (invalidAddressMsg ("h" ++ ":" ++ "abc")) := by
  refine ⟨?_, ?_, ?_, ?_, ?_, ?_⟩
  · exact C1_parseAddress_amended.1 "edgebug.cn" "27015" (by decide) (by decide)
      (by decide) (by decide) (by decide) (by decide) (by decide)
  · exact C1_parseAddress_amended.2.1 "edgebug.cn" (by decide) (by decide) (by decide)
  · exact C1_parseAddress_amended.2.2.1 "a:1:2" (by decide) (by decide) (by decide)
  · exact C1_parseAddress_amended.2.2.2.1 "h" "0" (by decide) (by decide) (by decide)
      (by decide) (Or.inr ⟨0, by decide, Or.inl (by decide)⟩)
  · exact C1_parseAddress_amended.2.2.2.1 "h" "65536" (by decide) (by decide) (by decide)
      (by decide) (Or.inr ⟨65536, by decide, Or.inr (by decide)⟩)
  · exact C1_parseAddress_amended.2.2.2.1 "h" "abc" (by decide) (by decide) (by decide)
      (by decide) (Or.inl (by decide))

/-- C2.  When caching is enabled (cacheTime > 0), a queryServer call
whose cache entry under host-colon-port is younger than cacheTime
returns the cached data with zero collaborator invocations, zero retry
delays, and an unchanged cache; on a miss (entry absent or at least
cacheTime old, or caching disabled) the collaborator is invoked at least
once, and if the call succeeds the cache entry under the key is
overwritten with the new data (timestamped with the entry time). -/
theorem C2_cache_hit_and_refresh :
    (∀ (α : Type) (cfg : RetryConfig) (cache : Cache α) (now : Int)
        (host : String) (port : Int) (attempt : Nat → Except String α)
        (e : CacheEntry α),
      cfg.cacheTime > 0 →
      cacheGet cache (host ++ ":" ++ toString port) = some e →
      now - e.timestamp < cfg.cacheTime →
      queryServer cfg cache now host port attempt = ⟨.ok e.data, cache, 0, 0⟩)
  ∧ (∀ (α : Type) (cfg : RetryConfig) (cache : Cache α) (now : Int)
        (host : String) (port : Int) (attempt : Nat → Except String α),
      cacheMiss cfg cache now (host ++ ":" ++ toString port) →
      1 ≤ (queryServer cfg cache now host port attempt).calls ∧
      ∀ d : α, cfg.cacheTime > 0 →
        (queryServer cfg cache now host port attempt).result = .ok d →
        cacheGet (queryServer cfg cache now host port attempt).cache
          (host ++ ":" ++ toString port) = some ⟨now, d⟩) := by
  constructor
  · intro α cfg cache now host port attempt e hct he hfresh
    unfold queryServer
    dsimp only
    rw [if_pos hct, he]
    dsimp only
    rw [if_pos hfresh]
  · intro α cfg cache now host port attempt hmiss
    rw [queryServer_miss cfg cache now host port attempt hmiss]
    constructor
    · exact retryGo_calls_pos cfg cache _ now attempt cfg.retryCount 0
    · intro d hct h
      exact retryGo_ok_cache cfg cache _ now attempt hct cfg.retryCount 0 d h

/-- Witness for C2 at concrete inputs: a fresh hit returns the cached
data with no call; a miss on an empty cache calls once and stores the
result under the key with the entry timestamp. -/
theorem C2_witness :
    queryServer (α := Nat) ⟨5000, 2⟩ [("h:1", ⟨0, 42⟩)] 3000 "h" 1
        (fun _ => .error "e") = ⟨.ok 42, [("h:1", ⟨0, 42⟩)], 0, 0⟩ ∧
    1 ≤ (queryServer (α := Nat) ⟨5000, 2⟩ [] 0 "h" 1 (fun _ => .ok 9)).calls ∧
    cacheGet (queryServer (α := Nat) ⟨5000, 2⟩ [] 0 "h" 1 (fun _ => .ok 9)).cache
      ("h" ++ ":" ++ toString (1 : Int)) = some ⟨0, 9⟩ := by
  refine ⟨?_, ?_, ?_⟩
  · exact C2_cache_hit_and_refresh.1 Nat ⟨5000, 2⟩ [("h:1", ⟨0, 42⟩)] 3000 "h" 1
      (fun _ => .error "e") ⟨0, 42⟩ (by decide) (by decide) (by decide)
  · exact (C2_cache_hit_and_refresh.2 Nat ⟨5000, 2⟩ [] 0 "h" 1 (fun _ => .ok 9)
      (Or.inr (Or.inl (by decide)))).1
  · exact (C2_cache_hit_and_refresh.2 Nat ⟨5000, 2⟩ [] 0 "h" 1 (fun _ => .ok 9)
      (Or.inr (Or.inl (by decide)))).2 9 (by decide) (by decide)

/-- C3.  On a cache miss with retryCount r, queryServer invokes the
collaborator at most r + 1 times; if every attempt fails it throws
QueryFailed carrying the last attempt error (the delays field counts
the fixed 1-second setTimeout waits: exactly r of them, one between
consecutive attempts, with no backoff growth); and if attempt k is the
first to succeed the call returns that result after exactly k + 1
invocations and k 1-second delays, short-circuiting the remaining
retries. -/
theorem C3_retry_loop :
    (∀ (α : Type) (cfg : RetryConfig) (cache : Cache α) (now : Int)
        (host : String) (port : Int) (attempt : Nat → Except String α),
      cacheMiss cfg cache now (host ++ ":" ++ toString port) →
      (queryServer cfg cache now host port attempt).calls ≤ cfg.retryCount + 1)
  ∧ (∀ (α : Type) (cfg : RetryConfig) (cache : Cache α) (now : Int)
        (host : String) (port : Int) (attempt : Nat → Except String α)
        (err : Nat → String),
      cacheMiss cfg cache now (host ++ ":" ++ toString port) →
      (∀ j, j ≤ cfg.retryCount → attempt j = .error (err j)) →
      queryServer cfg cache now host port attempt =
        ⟨.error (queryFailedMsg (err cfg.retryCount)), cache,
          cfg.retryCount + 1, cfg.retryCount⟩)
  ∧ (∀ (α : Type) (cfg : RetryConfig) (cache : Cache α) (now : Int)
        (host : String) (port : Int) (attempt : Nat → Except String α)
        (k : Nat) (d : α),
      cacheMiss cfg cache now (host ++ ":" ++ toString port) →
      k ≤ cfg.retryCount → attempt k = .ok d →
      (∀ j, j < k → ∃ m, attempt j = .error m) →
      queryServer cfg cache now host port attempt =
        ⟨.ok d,
          if cfg.cacheTime > 0 then
            cacheSet cache (host ++ ":" ++ toString port) ⟨now, d⟩
          else cache,
          k + 1, k⟩) := by
  refine ⟨?_, ?_, ?_⟩
  · intro α cfg cache now host port attempt hmiss
    rw [queryServer_miss cfg cache now host port attempt hmiss]
    exact retryGo_calls_le cfg cache _ now attempt cfg.retryCount 0
  · intro α cfg cache now host port attempt err hmiss hf
    rw [queryServer_miss cfg cache now host port attempt hmiss]
    have := retryGo_all_fail cfg cache (host ++ ":" ++ toString port) now attempt err
      cfg.retryCount 0 (fun j hj1 hj2 => hf j (by omega))
    simpa using this
  · intro α cfg cache now host port attempt k d hmiss hk hok hb
    rw [queryServer_miss cfg cache now host port attempt hmiss]
    exact retryGo_first_success cfg cache _ now attempt d k 0 cfg.retryCount hk
      (by simpa using hok) (fun j hj1 hj2 => hb j (by omega))

/-- Witness for C3: with retryCount 2 and caching disabled (a guaranteed
miss), an always-failing collaborator yields QueryFailed after 3 calls
and 2 delays, and a collaborator failing twice then succeeding returns
the value after 3 calls and 2 delays. -/
theorem C3_witness :
    (queryServer (α := Nat) ⟨0, 2⟩ [] 0 "h" 1 (fun _ => .error "boom")).calls ≤ 3 ∧
    queryServer (α := Nat) ⟨0, 2⟩ [] 0 "h" 1 (fun _ => .error "boom") =
      ⟨.error (queryFailedMsg "boom"), [], 3, 2⟩ ∧
    queryServer (α := Nat) ⟨0, 2⟩ [] 0 "h" 1
        (fun i => if i < 2 then .error "x" else .ok 5) = ⟨.ok 5, [], 3, 2⟩ := by
  refine ⟨?_, ?_, ?_⟩
  · exact C3_retry_loop.1 Nat ⟨0, 2⟩ [] 0 "h" 1 (fun _ => .error "boom")
      (Or.inl (by decide))
  · exact C3_retry_loop.2.1 Nat ⟨0, 2⟩ [] 0 "h" 1 (fun _ => .error "boom")
      (fun _ => "boom") (Or.inl (by decide)) (fun j hj => rfl)
  · exact C3_retry_loop.2.2 Nat ⟨0, 2⟩ [] 0 "h" 1
      (fun i => if i < 2 then .error "x" else .ok 5) 2 5 (Or.inl (by decide))
      (by decide) (by decide)
      (fun j hj => ⟨"x", by
        have hj2 : j = 0 ∨ j = 1 := by omega
        rcases hj2 with rfl | rfl <;> rfl⟩)

/-- C9.  queryServer samples Date.now() once at call entry, before the
retry loop, and a success at attempt k stores exactly that entry-time
value as the cache timestamp, even though k failed attempts and k fixed
1-second delays preceded the write; so the stored timestamp predates the
write by at least the 1000·k milliseconds of delays plus the time the
failed attempts took, and the entry freshness window (measured from the
stored timestamp) is shortened accordingly. -/
theorem C9_timestamp_sampled_at_entry :
    ∀ (α : Type) (cfg : RetryConfig) (cache : Cache α) (now : Int)
      (host : String) (port : Int) (attempt : Nat → Except String α)
      (k : Nat) (d : α),
      cfg.cacheTime > 0 →
      cacheMiss cfg cache now (host ++ ":" ++ toString port) →
      k ≤ cfg.retryCount → attempt k = .ok d →
      (∀ j, j < k → ∃ m, attempt j = .error m) →
      cacheGet (queryServer cfg cache now host port attempt).cache
          (host ++ ":" ++ toString port) = some ⟨now, d⟩ ∧
      (queryServer cfg cache now host port attempt).delays = k := by
  intro α cfg cache now host port attempt k d hct hmiss hk hok hb
  rw [queryServer_miss cfg cache now host port attempt hmiss]
  rw [retryGo_first_success cfg cache _ now attempt d k 0 cfg.retryCount hk
    (by simpa using hok) (fun j hj1 hj2 => hb j (by omega))]
  refine ⟨?_, rfl⟩
  dsimp only
  rw [if_pos hct]
  exact cacheGet_cacheSet cache _ ⟨now, d⟩

/-- Witness for C9: caching on, empty cache, failure then success at
attempt 1: the stored timestamp is the entry time 7, and one 1-second
delay was awaited. -/
theorem C9_witness :
    cacheGet (queryServer (α := Nat) ⟨5000, 2⟩ [] 7 "h" 1
        (fun i => if i = 0 then .error "x" else .ok 3)).cache
      ("h" ++ ":" ++ toString (1 : Int)) = some ⟨7, 3⟩ ∧
    (queryServer (α := Nat) ⟨5000, 2⟩ [] 7 "h" 1
        (fun i => if i = 0 then .error "x" else .ok 3)).delays = 1 :=
  C9_timestamp_sampled_at_entry Nat ⟨5000, 2⟩ [] 7 "h" 1
    (fun i => if i = 0 then .error "x" else .ok 3) 1 3 (by decide)
    (Or.inr (Or.inl (by decide))) (by decide) (by decide)
    (fun j hj => ⟨"x", by
      have hj0 : j = 0 := by omega
      subst hj0; rfl⟩)

theorem batchEntryFor_index (query : String → Int → Except String α)
    (i : Nat) (s : String) : (batchEntryFor query i s).index = i + 1 := by
  unfold batchEntryFor
  cases parseAddress s with
  | error e => rfl
  | ok hp =>
    cases hp with
    | mk host port =>
      dsimp only
      cases query host port <;> rfl

theorem batchEntryFor_server (query : String → Int → Except String α)
    (i : Nat) (s : String) : (batchEntryFor query i s).server = s := by
  unfold batchEntryFor
  cases parseAddress s with
  | error e => rfl
  | ok hp =>
    cases hp with
    | mk host port =>
      dsimp only
      cases query host port <;> rfl

/-- C4.  The batch fan-out returns exactly one settled entry per input
address: the result list has the input length, the entry at position i
is the settled outcome for input i tagged with 1-based index i + 1 and
the original address string, the entry at position i depends only on the
address at position i (so one address failing to parse or query never
suppresses or alters any other entry), and an empty input yields an
empty result. -/
theorem C4_batch_fan_out :
    (∀ (α : Type) (query : String → Int → Except String α),
      queryServers query [] = [])
  ∧ (∀ (α : Type) (query : String → Int → Except String α)
        (servers : List String),
      (queryServers query servers).length = servers.length)
  ∧ (∀ (α : Type) (query : String → Int → Except String α)
        (servers : List String) (i : Nat),
      (queryServers query servers)[i]? =
        (servers[i]?).map (batchEntryFor query i))
  ∧ (∀ (α : Type) (query : String → Int → Except String α)
        (servers : List String) (i : Nat) (s : String),
      servers[i]? = some s →
      ∃ entry, (queryServers query servers)[i]? = some entry ∧
        entry.index = i + 1 ∧ entry.server = s ∧
        entry = batchEntryFor query i s)
  ∧ (∀ (α : Type) (query : String → Int → Except String α)
        (servers1 servers2 : List String) (i : Nat),
      servers1[i]? = servers2[i]? →
      (queryServers query servers1)[i]? = (queryServers query servers2)[i]?)
  ∧ (∀ (α : Type) (query : String → Int → Except String α)
        (i : Nat) (s msg : String),
      parseAddress s = .error msg →
      batchEntryFor query i s = ⟨i + 1, s, .fail msg⟩)
  ∧ (∀ (α : Type) (query : String → Int → Except String α)
        (i : Nat) (s host : String) (port : Int) (msg : String),
      parseAddress s = .ok (host, port) → query host port = .error msg →
      batchEntryFor query i s = ⟨i + 1, s, .fail msg⟩) := by
  refine ⟨?_, ?_, ?_, ?_, ?_, ?_, ?_⟩
  · intro α query; rfl
  · intro α query servers
    exact queryServersAux_length query servers 0
  · intro α query servers i
    have := queryServersAux_getElem query servers 0 i
    simpa using this
  · intro α query servers i s hs
    refine ⟨batchEntryFor query i s, ?_, batchEntryFor_index query i s,
      batchEntryFor_server query i s, rfl⟩
    have := queryServersAux_getElem query servers 0 i
    rw [hs] at this
    simpa using this
  · intro α query servers1 servers2 i h
    have h1 := queryServersAux_getElem query servers1 0 i
    have h2 := queryServersAux_getElem query servers2 0 i
    rw [show queryServersAux query 0 servers1 = queryServers query servers1 from rfl] at h1
    rw [show queryServersAux query 0 servers2 = queryServers query servers2 from rfl] at h2
    rw [h1, h2, h]
  · intro α query i s msg hp
    unfold batchEntryFor
    rw [hp]
  · intro α query i s host port msg hp hq
    unfold batchEntryFor
    rw [hp]
    dsimp only
    rw [hq]

/-- Witness for C4: the three-address batch from the spec example, where
the middle address fails to parse (two unbracketed colons), still yields
entries for the other two addresses, in order, with 1-based indices. -/
theorem C4_witness :
    (∃ entry, (queryServers (fun h _ => if h = "a" then Except.ok 1
        else Except.error "down") ["a:1", "x:y:z", "b:2"])[1]? = some entry ∧
      entry.index = 2 ∧ entry.server = "x:y:z" ∧
      entry = batchEntryFor (fun h _ => if h = "a" then Except.ok 1
        else Except.error "down") 1 "x:y:z") ∧
    batchEntryFor (α := Nat) (fun h _ => if h = "a" then Except.ok 1
        else Except.error "down") 1 "x:y:z" =
      ⟨2, "x:y:z", .fail (invalidAddressMsg "x:y:z")⟩ ∧
    batchEntryFor (α := Nat) (fun h _ => if h = "a" then Except.ok 1
        else Except.error "down") 2 "b:2" = ⟨3, "b:2", .fail "down"⟩ := by
  refine ⟨?_, ?_, ?_⟩
  · exact C4_batch_fan_out.2.2.2.1 Nat
      (fun h _ => if h = "a" then Except.ok 1 else Except.error "down")
      ["a:1", "x:y:z", "b:2"] 1 "x:y:z" (by decide)
  · exact C4_batch_fan_out.2.2.2.2.2.1 Nat
      (fun h _ => if h = "a" then Except.ok 1 else Except.error "down")
      1 "x:y:z" (invalidAddressMsg "x:y:z") (by decide)
  · exact C4_batch_fan_out.2.2.2.2.2.2 Nat
      (fun h _ => if h = "a" then Except.ok 1 else Except.error "down")
      2 "b:2" "b" 2 "down" (by decide) (by decide)

/-! ### Lemmas about the formatters -/

theorem strData_append (s t : String) : (s ++ t).data = s.data ++ t.data := by
  cases s; cases t; rfl

theorem strLength_data (s : String) : s.length = s.data.length := rfl

theorem strAppend_empty (s : String) : s ++ "" = s := by
  cases s with
  | mk d =>
    show String.mk (d ++ []) = String.mk d
    rw [List.append_nil]

theorem numberLines_length : ∀ (l : List JSPlayer) (st : Nat),
    (numberLines st l).length = l.length := by
  intro l
  induction l with
  | nil => intro st; rfl
  | cons p rest ih => intro st; simp [numberLines, ih (st + 1)]

theorem numberLines_getElem : ∀ (l : List JSPlayer) (st i : Nat),
    (numberLines st l)[i]? =
      (l[i]?).map (fun p => toString (st + i + 1) ++ ". " ++ cleanName p.name) := by
  intro l
  induction l with
  | nil => intro st i; simp [numberLines]
  | cons p rest ih =>
    intro st i
    cases i with
    | zero => simp [numberLines]
    | succ n =>
      simp only [numberLines, List.getElem?_cons_succ]
      rw [ih (st + 1) n, show st + (n + 1) = st + 1 + n from by omega]

/-- C5 (amended).  The server-name cell of a successful batch-table row
is the cleaned name space-padded to exactly 20 characters when the
cleaned name is at most 20 characters long; a longer cleaned name is
truncated to its first 20 characters plus a three-dot ellipsis,
occupying 23 characters.  (The original claim that the cell always
occupies exactly 20 characters fails on names longer than 20: padEnd
never shortens, and truncateText appends the ellipsis.) -/
theorem C5_name_cell_amended :
    ∀ serverName : String,
      ((cleanName serverName).length ≤ 20 →
        (tableNameCell serverName).data =
          (cleanName serverName).data ++
            List.replicate (20 - (cleanName serverName).length) ' ' ∧
        (tableNameCell serverName).length = 20) ∧
      (20 < (cleanName serverName).length →
        tableNameCell serverName =
          (⟨(cleanName serverName).data.take 20⟩ : String) ++ "..." ∧
        (tableNameCell serverName).length = 23) := by
  intro name
  constructor
  · intro hle
    unfold tableNameCell truncateText padEnd
    rw [if_neg (show ¬((cleanName name).length > 20) from by omega)]
    by_cases hged : (cleanName name).length ≥ 20
    · have h20 : (cleanName name).length = 20 := by omega
      rw [if_pos hged]
      refine ⟨?_, h20⟩
      rw [h20]
      simp
    · rw [if_neg hged]
      constructor
      · rw [strData_append]
      · simp only [strLength_data, strData_append, List.length_append,
          List.length_replicate] at hle hged ⊢
        omega
  · intro hgt
    unfold tableNameCell truncateText padEnd
    rw [if_pos hgt]
    have hlen : ((⟨(cleanName name).data.take 20⟩ : String) ++ "...").length = 23 := by
      rw [strLength_data, strData_append, List.length_append, List.length_take]
      rw [strLength_data] at hgt
      have hmin : min 20 (cleanName name).data.length = 20 := by omega
      rw [hmin]
      rfl
    rw [if_pos (by rw [hlen]; omega)]
    exact ⟨rfl, hlen⟩

/-- C5 counterexample: a 21-character cleaned server name produces a
23-character cell (first 20 characters plus the ellipsis), so the name
column of a successful row does not always occupy exactly 20
characters. -/
theorem C5_counterexample :
    cleanName "abcdefghijklmnopqrstu" = "abcdefghijklmnopqrstu" ∧
    tableNameCell "abcdefghijklmnopqrstu" = "abcdefghijklmnopqrst..." ∧
    (tableNameCell "abcdefghijklmnopqrstu").length ≠ 20 := by
  exact ⟨by decide, by decide, by decide⟩

/-- Witness for C5: a 10-character name is padded to exactly 20, and a
21-character name occupies 23. -/
theorem C5_witness :
    (tableNameCell "server one").data =
      ("server one" : String).data ++ List.replicate 10 ' ' ∧
    (tableNameCell "server one").length = 20 ∧
    tableNameCell "abcdefghijklmnopqrstu" =
      (⟨("abcdefghijklmnopqrstu" : String).data.take 20⟩ : String) ++ "..." ∧
    (tableNameCell "abcdefghijklmnopqrstu").length = 23 := by
  refine ⟨?_, ?_, ?_, ?_⟩
  · exact ((C5_name_cell_amended "server one").1 (by decide)).1
  · exact ((C5_name_cell_amended "server one").1 (by decide)).2
  · exact ((C5_name_cell_amended "abcdefghijklmnopqrstu").2 (by decide)).1
  · exact ((C5_name_cell_amended "abcdefghijklmnopqrstu").2 (by decide)).2

/-- C6.  formatPlayers on the empty (or missing, which the source
guards identically) list returns the fixed no-players line; otherwise
the numbered lines are exactly the first maxPlayers players of the list
sorted by the case-insensitive (lowercased, cleaned-name) comparison,
numbered from 1; the sorted list is a permutation of the input and the
displayed segment is sorted; and the message ends with the
N-more-not-shown trailer exactly when the list length exceeds
maxPlayers, with N the number of hidden players. -/
theorem C6_formatPlayers :
    (∀ maxPlayers : Nat, formatPlayers maxPlayers [] = "👤 服务器当前无在线玩家")
  ∧ (∀ (maxPlayers : Nat) (players : List JSPlayer),
      (formatPlayersLines maxPlayers players).length =
        min maxPlayers players.length)
  ∧ (∀ (maxPlayers : Nat) (players : List JSPlayer) (i : Nat),
      (formatPlayersLines maxPlayers players)[i]? =
        (((sortPlayers players).take maxPlayers)[i]?).map
          (fun p => toString (i + 1) ++ ". " ++ cleanName p.name))
  ∧ (∀ players : List JSPlayer, (sortPlayers players).Perm players)
  ∧ (∀ (maxPlayers : Nat) (players : List JSPlayer),
      List.Sorted playerLe ((sortPlayers players).take maxPlayers))
  ∧ (∀ (maxPlayers : Nat) (players : List JSPlayer), players ≠ [] →
      players.length > maxPlayers →
      formatPlayers maxPlayers players =
        jsTrim (("👤 在线玩家 (" ++ toString players.length ++ "人):\n") ++
          String.join ((formatPlayersLines maxPlayers players).map (fun l => l ++ "\n")) ++
          ("... 还有 " ++ toString (players.length - maxPlayers) ++ " 位玩家未显示")))
  ∧ (∀ (maxPlayers : Nat) (players : List JSPlayer), players ≠ [] →
      players.length ≤ maxPlayers →
      formatPlayers maxPlayers players =
        jsTrim (("👤 在线玩家 (" ++ toString players.length ++ "人):\n") ++
          String.join ((formatPlayersLines maxPlayers players).map (fun l => l ++ "\n")))) := by
  refine ⟨?_, ?_, ?_, ?_, ?_, ?_, ?_⟩
  · intro maxPlayers; rfl
  · intro maxPlayers players
    unfold formatPlayersLines sortPlayers
    rw [numberLines_length, List.length_take, List.length_insertionSort]
  · intro maxPlayers players i
    unfold formatPlayersLines
    have := numberLines_getElem ((sortPlayers players).take maxPlayers) 0 i
    simpa using this
  · intro players
    exact List.perm_insertionSort playerLe players
  · intro maxPlayers players
    exact (List.sorted_insertionSort playerLe players).sublist
      (List.take_sublist maxPlayers (sortPlayers players))
  · intro maxPlayers players hne hgt
    unfold formatPlayers
    rw [if_neg (by simpa [List.isEmpty_iff] using hne), if_pos hgt]
  · intro maxPlayers players hne hle
    unfold formatPlayers
    rw [if_neg (by simpa [List.isEmpty_iff] using hne), if_neg (by omega),
      strAppend_empty]

/-- Witness for C6 at the spec example size: 25 players with
maxPlayers 20 give exactly 20 numbered lines and a 5-more-not-shown
trailer; the empty list gives the fixed line. -/
theorem C6_witness :
    formatPlayers 20 [] = "👤 服务器当前无在线玩家" ∧
    (formatPlayersLines 20 players25).length = 20 ∧
    formatPlayers 20 players25 =
      jsTrim (("👤 在线玩家 (" ++ toString (25 : Nat) ++ "人):\n") ++
        String.join ((formatPlayersLines 20 players25).map (fun l => l ++ "\n")) ++
        ("... 还有 " ++ toString (5 : Nat) ++ " 位玩家未显示")) := by
  refine ⟨?_, ?_, ?_⟩
  · exact C6_formatPlayers.1 20
  · exact (C6_formatPlayers.2.1 20 players25).trans (by decide)
  · exact C6_formatPlayers.2.2.2.2.2.1 20 players25 (by decide) (by decide)

/-! ### Lemmas about the scheduler timer state -/

theorem clearCurrent_live (s : TimerState) (hinv : timerInv s) :
    (clearCurrent s).live = [] := by
  unfold clearCurrent
  cases hs : s.scheduleTimer with
  | none =>
    cases hl : s.live with
    | nil => rfl
    | cons t rest =>
      have := hinv.1 t (by rw [hl]; exact List.mem_cons_self _ _)
      rw [hs] at this
      exact absurd this (by simp)
  | some h =>
    unfold clearIntervalOp
    simp only
    rw [List.filter_eq_nil_iff]
    intro a ha
    have := hinv.1 a ha
    rw [hs] at this
    simp only [Option.some.injEq] at this
    subst this
    simp

theorem clearCurrent_nextId (s : TimerState) :
    (clearCurrent s).nextId = s.nextId := by
  unfold clearCurrent
  cases s.scheduleTimer <;> rfl

theorem startScheduleTask_enabled (i : Nat) (hi : 0 < i) (s : TimerState) :
    startScheduleTask true i s =
      { scheduleTimer := some (clearCurrent s).nextId,
        live := (clearCurrent s).nextId :: (clearCurrent s).live,
        nextId := (clearCurrent s).nextId + 1 } := by
  unfold startScheduleTask setIntervalOp
  rw [if_pos ⟨rfl, hi⟩]

theorem startScheduleTask_disabled (e : Bool) (i : Nat) (s : TimerState)
    (h : ¬(e = true ∧ i > 0)) :
    startScheduleTask e i s = clearCurrent s := by
  unfold startScheduleTask
  rw [if_neg h]

theorem timerInv_initial : timerInv initialTimerState := by decide

theorem timerSync_initial : timerSync initialTimerState := by decide

theorem timerInv_start (e : Bool) (i : Nat) (s : TimerState) (hinv : timerInv s) :
    timerInv (startScheduleTask e i s) := by
  by_cases hc : e = true ∧ i > 0
  · obtain ⟨rfl, hi⟩ := hc
    rw [startScheduleTask_enabled i hi s]
    refine ⟨?_, ?_⟩
    · intro t ht
      rw [clearCurrent_live s hinv] at ht
      simp only [List.mem_singleton] at ht
      subst ht
      rfl
    · rw [clearCurrent_live s hinv]
      exact List.nodup_singleton _
  · rw [startScheduleTask_disabled e i s hc]
    refine ⟨?_, ?_⟩
    · intro t ht
      rw [clearCurrent_live s hinv] at ht
      exact absurd ht (List.not_mem_nil t)
    · rw [clearCurrent_live s hinv]
      exact List.nodup_nil

theorem timerInv_stop (s : TimerState) (hinv : timerInv s) :
    timerInv (stopScheduleTask s) := by
  unfold stopScheduleTask
  cases hs : s.scheduleTimer with
  | none => exact hinv
  | some h =>
    refine ⟨?_, ?_⟩
    · intro t ht
      simp only [clearIntervalOp, List.mem_filter] at ht
      have := hinv.1 t ht.1
      rw [hs] at this
      simp only [Option.some.injEq] at this
      subst this
      simp at ht
    · exact (hinv.2).filter _

theorem timerInv_length (s : TimerState) (hinv : timerInv s) :
    s.live.length ≤ 1 := by
  cases hl : s.live with
  | nil => simp
  | cons a rest =>
    cases hr : rest with
    | nil => simp
    | cons b rest2 =>
      have ha := hinv.1 a (by rw [hl]; exact List.mem_cons_self _ _)
      have hb := hinv.1 b
        (by rw [hl, hr]; exact List.mem_cons_of_mem _ (List.mem_cons_self _ _))
      rw [ha] at hb
      simp only [Option.some.injEq] at hb
      have hnd := hinv.2
      rw [hl, hr, hb] at hnd
      simp at hnd

theorem startScheduleTask_live_one (i : Nat) (hi : 0 < i) (s : TimerState)
    (hinv : timerInv s) :
    (startScheduleTask true i s).live.length = 1 := by
  rw [startScheduleTask_enabled i hi s]
  simp only [List.length_cons]
  rw [clearCurrent_live s hinv]
  rfl

theorem timerSync_start (i : Nat) (hi : 0 < i) (s : TimerState)
    (hsync : timerSync s) :
    timerSync (startScheduleTask true i s) := by
  refine ⟨timerInv_start true i s hsync.1, ?_⟩
  rw [startScheduleTask_enabled i hi s]
  simp

theorem stopScheduleTask_handle (s : TimerState) :
    (stopScheduleTask s).scheduleTimer = none := by
  unfold stopScheduleTask
  cases hs : s.scheduleTimer with
  | none => exact hs
  | some h => rfl

theorem timerSync_stop (s : TimerState) (hsync : timerSync s) :
    timerSync (stopScheduleTask s) := by
  refine ⟨timerInv_stop s hsync.1, ?_⟩
  rw [stopScheduleTask_handle s]
  unfold stopScheduleTask
  cases hs : s.scheduleTimer with
  | none =>
    simp only [true_iff]
    exact (hsync.2).mp hs
  | some h =>
    simp only [true_iff, clearIntervalOp]
    rw [List.filter_eq_nil_iff]
    intro a ha
    have := hsync.1.1 a ha
    rw [hs] at this
    simp only [Option.some.injEq] at this
    subst this
    simp

theorem stopScheduleTask_noop (s : TimerState) (hsync : timerSync s)
    (hlive : s.live = []) :
    stopScheduleTask s = s := by
  have hn : s.scheduleTimer = none := (hsync.2).mpr hlive
  unfold stopScheduleTask
  rw [hn]

/-- C7.  The startScheduleTask and stopScheduleTask transitions preserve
the at-most-one-live-timer invariant (which holds initially): start
always clears the timer named by the handle before optionally arming a
fresh one, so starting twice in succession (enabled, positive interval)
leaves exactly one live timer and no duplicate ticks; stop always nulls
the handle; and under the handle-liveness correspondence the program
maintains (start is only ever invoked with the schedule enabled and the
schema-positive interval), stopping when no timer is live is a no-op. -/
theorem C7_single_timer :
    timerInv initialTimerState
  ∧ (∀ (e : Bool) (i : Nat) (s : TimerState),
      timerInv s → timerInv (startScheduleTask e i s))
  ∧ (∀ s : TimerState, timerInv s → timerInv (stopScheduleTask s))
  ∧ (∀ s : TimerState, timerInv s → s.live.length ≤ 1)
  ∧ (∀ (i : Nat) (s : TimerState), 0 < i → timerInv s →
      (startScheduleTask true i (startScheduleTask true i s)).live.length = 1)
  ∧ (∀ s : TimerState, (stopScheduleTask s).scheduleTimer = none)
  ∧ (∀ s : TimerState, timerSync s → s.live = [] → stopScheduleTask s = s)
  ∧ timerSync initialTimerState
  ∧ (∀ (i : Nat) (s : TimerState), 0 < i → timerSync s →
      timerSync (startScheduleTask true i s))
  ∧ (∀ s : TimerState, timerSync s → timerSync (stopScheduleTask s)) := by
  refine ⟨timerInv_initial, timerInv_start, timerInv_stop, timerInv_length,
    ?_, stopScheduleTask_handle, stopScheduleTask_noop, timerSync_initial,
    fun i s hi hs => timerSync_start i hi s hs, timerSync_stop⟩
  intro i s hi hinv
  exact startScheduleTask_live_one i hi (startScheduleTask true i s)
    (timerInv_start true i s hinv)

/-- Witness for C7: starting twice from the initial state with a
5-minute interval leaves exactly one live timer; stopping the initial
state (no live timer) changes nothing; stopping always nulls the
handle. -/
theorem C7_witness :
    (startScheduleTask true 5 (startScheduleTask true 5 initialTimerState)).live.length = 1 ∧
    stopScheduleTask initialTimerState = initialTimerState ∧
    (stopScheduleTask ⟨some 0, [0], 1⟩).scheduleTimer = none := by
  refine ⟨?_, ?_, ?_⟩
  · exact C7_single_timer.2.2.2.2.1 5 initialTimerState (by decide) (by decide)
  · exact C7_single_timer.2.2.2.2.2.2.1 initialTimerState (by decide) (by decide)
  · exact C7_single_timer.2.2.2.2.2.1 ⟨some 0, [0], 1⟩

/-! ### Lemmas about the scheduler tick guard -/

theorem executeScheduleTask_skips_disabled (cfg : ScheduleConfig)
    (nowH nowM : Nat)
    (h : cfg.scheduleEnabled = false ∨ cfg.scheduleGroups = [] ∨
      cfg.serverList = []) :
    executeScheduleTask cfg nowH nowM = none := by
  unfold executeScheduleTask
  rcases h with h | h | h <;> rw [if_pos (by simp [h, List.isEmpty_iff])]

theorem executeScheduleTask_skips_outside (cfg : ScheduleConfig)
    (nowH nowM sm em : Nat)
    (hsm : parseTimeToMinutes cfg.scheduleStartTime = some sm)
    (hem : parseTimeToMinutes cfg.scheduleEndTime = some em)
    (hout : nowH * 60 + nowM < sm ∨ em < nowH * 60 + nowM) :
    executeScheduleTask cfg nowH nowM = none := by
  have hw : isWithinScheduleTime nowH nowM cfg.scheduleStartTime
      cfg.scheduleEndTime = false := by
    unfold isWithinScheduleTime
    rw [hsm, hem]
    rcases hout with h | h
    · have hns : ¬(sm ≤ nowH * 60 + nowM) := by omega
      simp [hns]
    · have hne : ¬(nowH * 60 + nowM ≤ em) := by omega
      simp [hne]
  unfold executeScheduleTask
  by_cases hg : (!cfg.scheduleEnabled || cfg.scheduleGroups.isEmpty ||
      cfg.serverList.isEmpty) = true
  · rw [if_pos hg]
  · rw [if_neg hg, hw]
    rfl

theorem executeScheduleTask_runs (cfg : ScheduleConfig)
    (nowH nowM sm em : Nat)
    (hsm : parseTimeToMinutes cfg.scheduleStartTime = some sm)
    (hem : parseTimeToMinutes cfg.scheduleEndTime = some em)
    (he : cfg.scheduleEnabled = true)
    (hgr : cfg.scheduleGroups ≠ []) (hsv : cfg.serverList ≠ [])
    (h1 : sm ≤ nowH * 60 + nowM) (h2 : nowH * 60 + nowM ≤ em) :
    executeScheduleTask cfg nowH nowM =
      some (cfg.serverList, cfg.scheduleGroups) := by
  have hw : isWithinScheduleTime nowH nowM cfg.scheduleStartTime
      cfg.scheduleEndTime = true := by
    unfold isWithinScheduleTime
    rw [hsm, hem]
    simp [h1, h2]
  unfold executeScheduleTask
  rw [if_neg (by simp [he, List.isEmpty_iff, hgr, hsv]), hw]
  rfl

/-- C8.  With schema-shaped (parseable) start and end times, a tick
whose local minute-of-day lies strictly outside [start, end] performs no
query and no broadcast; a tick disabled by configuration (schedule off,
no destination group, or no server) likewise does nothing; and when the
schedule is enabled with nonempty group and server lists, a tick exactly
at the start or at the end boundary minute (window start at most end)
does run, as does any tick inclusively inside the window, querying the
configured servers and broadcasting to the configured groups. -/
theorem C8_schedule_window :
    (∀ (cfg : ScheduleConfig) (nowH nowM sm em : Nat),
      parseTimeToMinutes cfg.scheduleStartTime = some sm →
      parseTimeToMinutes cfg.scheduleEndTime = some em →
      (nowH * 60 + nowM < sm ∨ em < nowH * 60 + nowM) →
      executeScheduleTask cfg nowH nowM = none)
  ∧ (∀ (cfg : ScheduleConfig) (nowH nowM : Nat),
      (cfg.scheduleEnabled = false ∨ cfg.scheduleGroups = [] ∨
        cfg.serverList = []) →
      executeScheduleTask cfg nowH nowM = none)
  ∧ (∀ (cfg : ScheduleConfig) (nowH nowM sm em : Nat),
      parseTimeToMinutes cfg.scheduleStartTime = some sm →
      parseTimeToMinutes cfg.scheduleEndTime = some em →
      cfg.scheduleEnabled = true → cfg.scheduleGroups ≠ [] →
      cfg.serverList ≠ [] → sm ≤ em →
      (nowH * 60 + nowM = sm ∨ nowH * 60 + nowM = em) →
      executeScheduleTask cfg nowH nowM =
        some (cfg.serverList, cfg.scheduleGroups))
  ∧ (∀ (cfg : ScheduleConfig) (nowH nowM sm em : Nat),
      parseTimeToMinutes cfg.scheduleStartTime = some sm →
      parseTimeToMinutes cfg.scheduleEndTime = some em →
      cfg.scheduleEnabled = true → cfg.scheduleGroups ≠ [] →
      cfg.serverList ≠ [] → sm ≤ nowH * 60 + nowM → nowH * 60 + nowM ≤ em →
      executeScheduleTask cfg nowH nowM =
        some (cfg.serverList, cfg.scheduleGroups)) := by
  refine ⟨executeScheduleTask_skips_outside, executeScheduleTask_skips_disabled,
    ?_, executeScheduleTask_runs⟩
  intro cfg nowH nowM sm em hsm hem he hgr hsv hse hb
  exact executeScheduleTask_runs cfg nowH nowM sm em hsm hem he hgr hsv
    (by omega) (by omega)

/-- Witness for C8 with the default 08:00-23:00 window: 07:59 is
outside, 08:00 and 23:00 run, a disabled schedule never runs. -/
theorem C8_witness :
    executeScheduleTask ⟨true, "08:00", "23:00", ["g1"], ["s:27015"]⟩ 7 59 = none ∧
    executeScheduleTask ⟨true, "08:00", "23:00", ["g1"], ["s:27015"]⟩ 8 0 =
      some (["s:27015"], ["g1"]) ∧
    executeScheduleTask ⟨true, "08:00", "23:00", ["g1"], ["s:27015"]⟩ 23 0 =
      some (["s:27015"], ["g1"]) ∧
    executeScheduleTask ⟨false, "08:00", "23:00", ["g1"], ["s:27015"]⟩ 12 0 = none := by
  refine ⟨?_, ?_, ?_, ?_⟩
  · exact C8_schedule_window.1 ⟨true, "08:00", "23:00", ["g1"], ["s:27015"]⟩
      7 59 480 1380 (by decide) (by decide) (Or.inl (by decide))
  · exact C8_schedule_window.2.2.1 ⟨true, "08:00", "23:00", ["g1"], ["s:27015"]⟩
      8 0 480 1380 (by decide) (by decide) rfl (by decide) (by decide) (by decide)
      (Or.inl (by decide))
  · exact C8_schedule_window.2.2.1 ⟨true, "08:00", "23:00", ["g1"], ["s:27015"]⟩
      23 0 480 1380 (by decide) (by decide) rfl (by decide) (by decide) (by decide)
      (Or.inr (by decide))
  · exact C8_schedule_window.2.1 ⟨false, "08:00", "23:00", ["g1"], ["s:27015"]⟩
      12 0 (Or.inl rfl)

/-- C10.  In both the cs and the csss command actions the image flag
takes precedence over the text flag: an image is attempted whenever the
image option is set, even together with the text option; with the image
option unset, the text option only suppresses the configured
generateImage default. -/
theorem C10_image_flag_precedence :
    (∀ image text generateImage : Bool,
      csShouldGenerateImage image text generateImage =
        (image || (generateImage && !text)))
  ∧ (∀ text generateImage : Bool,
      csShouldGenerateImage true text generateImage = true)
  ∧ (∀ text generateImage : Bool,
      csShouldGenerateImage false text generateImage = (generateImage && !text))
  ∧ (∀ generateImage : Bool,
      csShouldGenerateImage false true generateImage = false)
  ∧ (∀ image text generateImage : Bool,
      csssShouldGenerateImage image text generateImage =
        (image || (generateImage && !text)))
  ∧ (∀ text generateImage : Bool,
      csssShouldGenerateImage true text generateImage = true)
  ∧ (∀ text generateImage : Bool,
      csssShouldGenerateImage false text generateImage = (generateImage && !text))
  ∧ (∀ generateImage : Bool,
      csssShouldGenerateImage false true generateImage = false) := by
  refine ⟨?_, ?_, ?_, ?_, ?_, ?_, ?_, ?_⟩ <;> decide

end Csss

